import Mathlib

/-!
Shallow embedding of the fruit_dealer_game core (src/models.py,
src/systems/pricing.py, src/game_engine.py, src/persistence.py,
src/game_setup.py) and proofs about it.

Python `dict`s over string keys are modelled as insertion-ordered
association lists (`List (String × α)`); `d.get(k, v)` is `dictGetD`,
`k in d` is `dictContains`, `d[k] = v` is `dictSet` (update in place or
append, matching CPython's insertion-order semantics).  Python `int` is
`Int`, and the `float` arithmetic of the pricing formula is modelled over
`ℚ` (every machine float is a rational, and the spec states the pricing
property over real intervals with rational endpoints).  `random.uniform`
is modelled as an injected stream of draws, one per (market index,
fruit index), as the spec's design notes require.

models.py declares the fields `Player.city` and `Game.day`, while every
constructor and operation in the repository (game_setup.setup_data, the
engine, persistence, the test fixtures) uses `current_city` and
`current_day`.  The main embedding below uses the operative names — the
canonical variant the spec adopts — and the `Decl` namespace separately
models the records exactly as declared in models.py, with the dynamic
attributes `current_city` / `current_day` as `Option` slots that are
`none` until assigned at runtime, to analyse the naming mismatch.
-/

namespace FruitGame

/-- `d.get(k, v₀)` on a Python dict modelled as an association list:
value of the first entry with key `k`, else the default. -/
def dictGetD (d : List (String × α)) (k : String) (v₀ : α) : α :=
  match d.find? (fun p => p.1 == k) with
  | some p => p.2
  | none => v₀

/-- `k in d` on a Python dict. -/
def dictContains (d : List (String × α)) (k : String) : Bool :=
  d.any (fun p => p.1 == k)

/-- `d[k] = v` on a Python dict: update the existing entry in place, or
append a new entry at the end (CPython insertion order). -/
def dictSet : List (String × α) → String → α → List (String × α)
  | [], k, v => [(k, v)]
  | (k₁, v₁) :: rest, k, v =>
      if k₁ == k then (k, v) :: rest else (k₁, v₁) :: dictSet rest k v

/-- models.py `Fruit`: name, base price in cents, emoji, description. -/
structure Fruit where
  name : String
  base_price : Int
  emoji : String
  description : String := "No description provided"
deriving Repr, DecidableEq

/-- models.py `City`: name, position, specialties (fruit name ↦ price
modifier). -/
structure City where
  name : String
  position : Int × Int
  specialties : List (String × ℚ)
deriving Repr, DecidableEq

/-- models.py `Player` in the canonical (operative) field naming:
`current_city` is the field every constructor and operation in the
repository actually uses (models.py declares it as `city`; see `Decl`). -/
structure Player where
  name : String
  money : Int
  inventory : List (String × Int)
  current_city : City
deriving Repr, DecidableEq

/-- models.py `Market`: one per city, owning the current price table. -/
structure Market where
  city : City
  prices : List (String × Int)
deriving Repr, DecidableEq

/-- models.py `Game` in the canonical (operative) field naming:
`current_day` is the field the engine and all constructors use
(models.py declares it as `day`; see `Decl`). -/
structure Game where
  fruits : List Fruit
  cities : List City
  player : Player
  markets : List Market
  current_day : Int
deriving Repr, DecidableEq

/-- Python `int(x)` on the ℚ-modelled float value: truncation toward
zero. -/
def pyInt (q : ℚ) : Int :=
  if 0 ≤ q then ⌊q⌋ else ⌈q⌉

/-- One iteration of the loop body of
`PricingSystem._calculate_market_prices`: price of one fruit in one city
given the random factor drawn for this (city, fruit) pair —
`int(fruit.base_price * city.specialties.get(fruit.name, 1.0) * random_factor)`. -/
def fruitPrice (city : City) (f : Fruit) (rf : ℚ) : Int :=
  pyInt ((f.base_price : ℚ) * dictGetD city.specialties f.name 1 * rf)

/-- The `for fruit in fruits` loop of
`PricingSystem._calculate_market_prices`, building the `prices` dict;
`j` counts the `random.uniform(0.8, 1.2)` draws already consumed, `r j`
is the j-th draw. -/
def calcLoop (city : City) : List Fruit → (ℕ → ℚ) → ℕ → List (String × Int) → List (String × Int)
  | [], _, _, acc => acc
  | f :: rest, r, j, acc =>
      calcLoop city rest r (j + 1) (dictSet acc f.name (fruitPrice city f (r j)))

/-- `PricingSystem._calculate_market_prices(city, fruits)` with the
random draws injected as the stream `r`. -/
def calcMarketPrices (city : City) (fruits : List Fruit) (r : ℕ → ℚ) : List (String × Int) :=
  calcLoop city fruits r 0 []

/-- The `for market in self.game.markets` loop of
`PricingSystem.regenerate_all_prices`; market number `i` consumes the
draw stream `r i`. -/
def regenMarkets (fruits : List Fruit) (r : ℕ → ℕ → ℚ) : List Market → ℕ → List Market
  | [], _ => []
  | m :: rest, i =>
      { m with prices := calcMarketPrices m.city fruits (r i) } :: regenMarkets fruits r rest (i + 1)

/-- `PricingSystem.regenerate_all_prices()`: overwrite every market's
price table with freshly computed prices. -/
def regenerateAllPrices (g : Game) (r : ℕ → ℕ → ℚ) : Game :=
  { g with markets := regenMarkets g.fruits r g.markets 0 }

/-- `PricingSystem.get_price(fruit_name, city_name)`: 0 when the city or
the fruit is unknown. -/
def getPrice (g : Game) (fruit_name city_name : String) : Int :=
  match g.markets.find? (fun m => m.city.name == city_name) with
  | some market => dictGetD market.prices fruit_name 0
  | none => 0

/-- Outcome of one engine operation: Python's raise/return modelled as
the optional `ValueError` message together with the state as it stands
when control returns to the caller (a raise keeps every mutation already
applied before the raising statement — in the engine all raises precede
all mutations). -/
structure StepResult (σ : Type) where
  err : Option String
  st : σ
deriving Repr, DecidableEq

/-- `GameEngine._get_current_market()`: first market whose city name
matches the player's current city name (`None` when there is none; the
caller raises). -/
def getCurrentMarket (g : Game) : Option Market :=
  g.markets.find? (fun m => m.city.name == g.player.current_city.name)

/-- The fixed flat travel cost, the local `travel_cost = 50` of
`GameEngine.travel`. -/
def travelCost : Int := 50

/-- `GameEngine.buy(fruit_name, quantity)`. -/
def buy (g : Game) (fruit_name : String) (quantity : Int) : StepResult Game :=
  match getCurrentMarket g with
  | none => ⟨some ("No market for " ++ g.player.current_city.name), g⟩
  | some market =>
    if ¬ dictContains market.prices fruit_name then
      ⟨some ("Fruit not found in market: " ++ fruit_name), g⟩
    else
      let price := dictGetD market.prices fruit_name 0
      let total_cost := price * quantity
      if total_cost > g.player.money then
        ⟨some ("Not enough funds to buy " ++ toString quantity ++ " " ++ fruit_name), g⟩
      else
        let current := dictGetD g.player.inventory fruit_name 0
        ⟨none,
          { g with player :=
            { g.player with
                money := g.player.money - total_cost,
                inventory := dictSet g.player.inventory fruit_name (current + quantity) } }⟩

/-- `GameEngine.sell(fruit_name, quantity)`. -/
def sell (g : Game) (fruit_name : String) (quantity : Int) : StepResult Game :=
  match getCurrentMarket g with
  | none => ⟨some ("No market for " ++ g.player.current_city.name), g⟩
  | some market =>
    if ¬ dictContains market.prices fruit_name then
      ⟨some ("Fruit not found in market: " ++ fruit_name), g⟩
    else
      let current_qty := dictGetD g.player.inventory fruit_name 0
      if quantity > current_qty then
        ⟨some ("Not enough " ++ fruit_name ++ " to sell " ++ toString quantity), g⟩
      else
        let price := dictGetD market.prices fruit_name 0
        ⟨none,
          { g with player :=
            { g.player with
                money := g.player.money + price * quantity,
                inventory := dictSet g.player.inventory fruit_name (current_qty - quantity) } }⟩

/-- `GameEngine.travel(city_name)` with the random draws of the
triggered regeneration injected as `r`: look up the city, check funds,
then pay, move, and `_advance_day` (day + 1 and full price
regeneration). -/
def travel (g : Game) (city_name : String) (r : ℕ → ℕ → ℚ) : StepResult Game :=
  match g.cities.find? (fun c => c.name == city_name) with
  | none => ⟨some ("City not found: " ++ city_name), g⟩
  | some city =>
    if g.player.money < travelCost then
      ⟨some ("Not enough funds to travel to " ++ city_name ++ ". " ++
             "You need " ++ toString travelCost ++ " more."), g⟩
    else
      let g₁ := { g with player :=
        { g.player with money := g.player.money - travelCost, current_city := city } }
      let g₂ := { g₁ with current_day := g₁.current_day + 1 }
      ⟨none, regenerateAllPrices g₂ r⟩

/-- The dict produced by `persistence.serialize_game`: fruits and cities
as records, markets stored by city name with their price mapping, the
player with the current city stored by name, the day counter, and the
informational timestamp (taken as a parameter, `datetime.now()`). -/
structure SaveData where
  fruits : List Fruit
  cities : List City
  markets : List (String × List (String × Int))
  player_name : String
  player_money : Int
  player_inventory : List (String × Int)
  player_current_city : String
  current_day : Int
  created_at : String
deriving Repr, DecidableEq

/-- `persistence.serialize_game(engine)`. -/
def serializeGame (g : Game) (now : String) : SaveData :=
  { fruits := g.fruits
    cities := g.cities
    markets := g.markets.map (fun m => (m.city.name, m.prices))
    player_name := g.player.name
    player_money := g.player.money
    player_inventory := g.player.inventory
    player_current_city := g.player.current_city.name
    current_day := g.current_day
    created_at := now }

/-- The `city_lookup = {city.name: city for city in cities}` dict of
`persistence.deserialize_game`: a later city with the same name
overrides an earlier one, so look up the last matching city; `none`
models the `KeyError` the subscript raises. -/
def cityLookup (cities : List City) (n : String) : Option City :=
  cities.reverse.find? (fun c => c.name == n)

/-- The markets list comprehension of `persistence.deserialize_game`:
resolve each stored city name through `city_lookup`, raising `KeyError`
at the first unresolvable name. -/
def buildMarkets (cities : List City) : List (String × List (String × Int)) → Except String (List Market)
  | [] => Except.ok []
  | (nm, pr) :: rest =>
    match cityLookup cities nm with
    | none => Except.error ("KeyError: " ++ nm)
    | some c =>
      match buildMarkets cities rest with
      | Except.ok ms => Except.ok (Market.mk c pr :: ms)
      | Except.error e => Except.error e

/-- `persistence.deserialize_game(game_data)`: rebuild the `Game`,
resolving city references by name; an unresolvable reference is the
`KeyError` error class. -/
def deserializeGame (d : SaveData) : Except String Game :=
  match buildMarkets d.cities d.markets with
  | Except.error e => Except.error e
  | Except.ok markets =>
    match cityLookup d.cities d.player_current_city with
    | none => Except.error ("KeyError: " ++ d.player_current_city)
    | some player_city =>
      Except.ok
        { fruits := d.fruits
          cities := d.cities
          player :=
            { name := d.player_name
              money := d.player_money
              inventory := d.player_inventory
              current_city := player_city }
          markets := markets
          current_day := d.current_day }

end FruitGame

namespace Decl

open FruitGame (Fruit City Market StepResult dictGetD dictContains dictSet
  calcMarketPrices fruitPrice pyInt travelCost)

/-- models.py `Player` exactly as declared: the dataclass field is
`city`, and `current_city` — the attribute every operation actually
addresses — is only a dynamic attribute slot, `none` until some code
assigns it at runtime (dataclass instances accept new attributes). -/
structure PlayerD where
  name : String
  money : Int
  inventory : List (String × Int)
  city : City
  current_city : Option City := none
deriving Repr, DecidableEq

/-- models.py `Game` exactly as declared: the dataclass field is `day`,
and `current_day` is only a dynamic attribute slot, `none` until
assigned at runtime. -/
structure GameD where
  fruits : List Fruit
  cities : List City
  player : PlayerD
  markets : List Market
  day : Int
  current_day : Option Int := none
deriving Repr, DecidableEq

/-- The declared field names of the `Player` dataclass in models.py. -/
def playerFields : List String := ["name", "money", "inventory", "city"]

/-- The declared field names of the `Game` dataclass in models.py. -/
def gameFields : List String := ["fruits", "cities", "player", "markets", "day"]

/-- The keyword names `game_setup.setup_data` passes to `Player(...)`. -/
def setupPlayerKwargs : List String := ["name", "money", "inventory", "current_city"]

/-- The keyword names `game_setup.setup_data` passes to `Game(...)`. -/
def setupGameKwargs : List String := ["fruits", "cities", "player", "markets", "current_day"]

/-- A dataclass `__init__` call accepts a keyword argument list exactly
when every given keyword is a declared field and every declared field
(none has a default here) is given. -/
def ctorKwargsOk (declared given : List String) : Bool :=
  given.all (fun k => declared.contains k) && declared.all (fun f => given.contains f)

/-- Python keyword-call semantics of a dataclass constructor, as a
validity gate: the `TypeError` raised for the first unexpected keyword,
then for the first missing required field. -/
def dataclassCall (tyName : String) (declared given : List String) : Except String Unit :=
  match given.find? (fun k => ¬ declared.contains k) with
  | some k => Except.error ("TypeError: " ++ tyName ++ " got an unexpected keyword argument: " ++ k)
  | none =>
    match declared.find? (fun f => ¬ given.contains f) with
    | some f => Except.error ("TypeError: " ++ tyName ++ " missing required argument: " ++ f)
    | none => Except.ok ()

/-- `game_setup.setup_data(player_name)` against the records as declared
in models.py: fruits, cities and markets construct fine, but
`Player(name=…, money=…, inventory=…, current_city=cities[0])` is a
keyword call the declared `Player(name, money, inventory, city)`
dataclass rejects, so the call raises before any `Game` is built (the
`Game(..., current_day=1)` call would be rejected the same way). -/
def setupData (player_name : String) : Except String GameD := do
  let _ ← dataclassCall "Player.__init__()" playerFields setupPlayerKwargs
  let _ ← dataclassCall "Game.__init__()" gameFields setupGameKwargs
  Except.error ("unreachable for " ++ player_name)

/-- Reading `player.current_city` on the as-declared record: an
`AttributeError` unless the dynamic attribute was assigned. -/
def readCurrentCity (p : PlayerD) : Except String City :=
  match p.current_city with
  | some c => Except.ok c
  | none => Except.error "AttributeError: Player object has no attribute current_city"

/-- `GameEngine._get_current_market` on the as-declared records: reads
`self.player.current_city.name` first, which raises `AttributeError`
when the dynamic attribute is unset. -/
def getCurrentMarketD (g : GameD) : Except String Market :=
  match readCurrentCity g.player with
  | Except.error e => Except.error e
  | Except.ok cc =>
    match g.markets.find? (fun m => m.city.name == cc.name) with
    | none => Except.error ("No market for " ++ cc.name)
    | some m => Except.ok m

/-- `GameEngine.buy` on the as-declared records. -/
def buyD (g : GameD) (fruit_name : String) (quantity : Int) : StepResult GameD :=
  match getCurrentMarketD g with
  | Except.error e => ⟨some e, g⟩
  | Except.ok market =>
    if ¬ dictContains market.prices fruit_name then
      ⟨some ("Fruit not found in market: " ++ fruit_name), g⟩
    else
      let price := dictGetD market.prices fruit_name 0
      let total_cost := price * quantity
      if total_cost > g.player.money then
        ⟨some ("Not enough funds to buy " ++ toString quantity ++ " " ++ fruit_name), g⟩
      else
        let current := dictGetD g.player.inventory fruit_name 0
        ⟨none,
          { g with player :=
            { g.player with
                money := g.player.money - total_cost,
                inventory := dictSet g.player.inventory fruit_name (current + quantity) } }⟩

/-- `GameEngine.sell` on the as-declared records. -/
def sellD (g : GameD) (fruit_name : String) (quantity : Int) : StepResult GameD :=
  match getCurrentMarketD g with
  | Except.error e => ⟨some e, g⟩
  | Except.ok market =>
    if ¬ dictContains market.prices fruit_name then
      ⟨some ("Fruit not found in market: " ++ fruit_name), g⟩
    else
      let current_qty := dictGetD g.player.inventory fruit_name 0
      if quantity > current_qty then
        ⟨some ("Not enough " ++ fruit_name ++ " to sell " ++ toString quantity), g⟩
      else
        let price := dictGetD market.prices fruit_name 0
        ⟨none,
          { g with player :=
            { g.player with
                money := g.player.money + price * quantity,
                inventory := dictSet g.player.inventory fruit_name (current_qty - quantity) } }⟩

/-- `PricingSystem.regenerate_all_prices` on the as-declared records
(the pricing system touches only declared fields, so it runs fine). -/
def regenerateAllPricesD (g : GameD) (r : ℕ → ℕ → ℚ) : GameD :=
  { g with markets := FruitGame.regenMarkets g.fruits r g.markets 0 }

/-- `GameEngine.travel` on the as-declared records: the city lookup and
the funds check use declared fields; then `self.player.money -= 50` and
`self.player.current_city = city` both succeed (assigning a fresh
dynamic attribute is legal), and `_advance_day`'s
`self.game.current_day += 1` first *reads* `current_day`, raising
`AttributeError` when the dynamic attribute is unset — after the money
and city mutations have already been applied. -/
def travelD (g : GameD) (city_name : String) (r : ℕ → ℕ → ℚ) : StepResult GameD :=
  match g.cities.find? (fun c => c.name == city_name) with
  | none => ⟨some ("City not found: " ++ city_name), g⟩
  | some city =>
    if g.player.money < travelCost then
      ⟨some ("Not enough funds to travel to " ++ city_name ++ ". " ++
             "You need " ++ toString travelCost ++ " more."), g⟩
    else
      let g₁ := { g with player :=
        { g.player with money := g.player.money - travelCost, current_city := some city } }
      match g₁.current_day with
      | none => ⟨some "AttributeError: Game object has no attribute current_day", g₁⟩
      | some d =>
        let g₂ := { g₁ with current_day := some (d + 1) }
        ⟨none, regenerateAllPricesD g₂ r⟩

/-- Overwrite the declared `Player.city` and `Game.day` fields — the
fields no operation is supposed to read or write. -/
def setCityDay (g : GameD) (c : City) (d : Int) : GameD :=
  { g with day := d, player := { g.player with city := c } }

end Decl

namespace FruitGame

theorem dictGetD_dictSet_self (d : List (String × α)) (k : String) (v v₀ : α) :
    dictGetD (dictSet d k v) k v₀ = v := by
  induction d with
  | nil => simp [dictSet, dictGetD, List.find?]
  | cons p rest ih =>
    obtain ⟨k₁, v₁⟩ := p
    by_cases h : k₁ = k
    · simp [dictSet, dictGetD, List.find?, h]
    · simpa [dictSet, dictGetD, List.find?, h] using ih

theorem dictGetD_dictSet_ne (d : List (String × α)) (k k' : String) (v : α) (v₀ : α)
    (h : k' ≠ k) : dictGetD (dictSet d k v) k' v₀ = dictGetD d k' v₀ := by
  have hkk : (k == k') = false := by simp [Ne.symm h]
  induction d with
  | nil => simp [dictSet, dictGetD, List.find?, hkk]
  | cons p rest ih =>
    obtain ⟨k₁, v₁⟩ := p
    by_cases h₁ : k₁ = k
    · subst h₁
      simp [dictSet, dictGetD, List.find?, hkk]
    · have hb₁ : (k₁ == k) = false := by simp [h₁]
      by_cases h₂ : k₁ = k'
      · subst h₂
        simp [dictSet, dictGetD, List.find?, hb₁]
      · have hb₂ : (k₁ == k') = false := by simp [h₂]
        simpa [dictSet, dictGetD, List.find?, hb₁, hb₂] using ih

theorem getD_calcLoop_not_mem (city : City) (r : ℕ → ℚ) :
    ∀ (fruits : List Fruit) (j : ℕ) (acc : List (String × Int)) (n : String) (d : Int),
      (∀ f ∈ fruits, f.name ≠ n) →
      dictGetD (calcLoop city fruits r j acc) n d = dictGetD acc n d := by
  intro fruits
  induction fruits with
  | nil => intro j acc n d _; rfl
  | cons f rest ih =>
    intro j acc n d h
    have hrec := ih (j + 1) (dictSet acc f.name (fruitPrice city f (r j))) n d
      (fun f' hf' => h f' (List.mem_cons_of_mem _ hf'))
    calc dictGetD (calcLoop city (f :: rest) r j acc) n d
        = dictGetD (dictSet acc f.name (fruitPrice city f (r j))) n d := hrec
      _ = dictGetD acc n d :=
          dictGetD_dictSet_ne _ _ _ _ _ (fun hn => h f (List.mem_cons_self _ _) hn.symm)

theorem getD_calcLoop (city : City) (r : ℕ → ℚ) :
    ∀ (fruits : List Fruit) (k j : ℕ) (acc : List (String × Int)) (hk : k < fruits.length),
      (fruits.map Fruit.name).Nodup →
      dictGetD (calcLoop city fruits r j acc) (fruits.get ⟨k, hk⟩).name 0
        = fruitPrice city (fruits.get ⟨k, hk⟩) (r (j + k)) := by
  intro fruits
  induction fruits with
  | nil => intro k j acc hk _; exact absurd hk (Nat.not_lt_zero k)
  | cons f rest ih =>
    intro k j acc hk hnodup
    rw [List.map_cons, List.nodup_cons] at hnodup
    match k with
    | 0 =>
      have hget : (f :: rest).get ⟨0, hk⟩ = f := rfl
      rw [hget]
      have hskip : ∀ f' ∈ rest, f'.name ≠ f.name := by
        intro f' hf' hne
        exact hnodup.1 (hne ▸ List.mem_map_of_mem Fruit.name hf')
      calc dictGetD (calcLoop city (f :: rest) r j acc) f.name 0
          = dictGetD (dictSet acc f.name (fruitPrice city f (r j))) f.name 0 :=
            getD_calcLoop_not_mem city r rest (j + 1) _ f.name 0 hskip
        _ = fruitPrice city f (r j) := dictGetD_dictSet_self _ _ _ _
        _ = fruitPrice city f (r (j + 0)) := by rw [Nat.add_zero]
    | k' + 1 =>
      have hk' : k' < rest.length := Nat.lt_of_succ_lt_succ hk
      have hget : (f :: rest).get ⟨k' + 1, hk⟩ = rest.get ⟨k', hk'⟩ := rfl
      rw [hget]
      have hrec := ih k' (j + 1) (dictSet acc f.name (fruitPrice city f (r j))) hk' hnodup.2
      have hunfold : calcLoop city (f :: rest) r j acc
          = calcLoop city rest r (j + 1) (dictSet acc f.name (fruitPrice city f (r j))) := rfl
      rw [hunfold, hrec, Nat.add_assoc, Nat.add_comm 1 k']

theorem getD_calcMarketPrices (city : City) (fruits : List Fruit) (r : ℕ → ℚ)
    (k : ℕ) (hk : k < fruits.length) (hnodup : (fruits.map Fruit.name).Nodup) :
    dictGetD (calcMarketPrices city fruits r) (fruits.get ⟨k, hk⟩).name 0
      = fruitPrice city (fruits.get ⟨k, hk⟩) (r k) := by
  have := getD_calcLoop city r fruits k 0 [] hk hnodup
  rwa [Nat.zero_add] at this

theorem regenMarkets_length (fruits : List Fruit) (r : ℕ → ℕ → ℚ) :
    ∀ (ms : List Market) (i : ℕ), (regenMarkets fruits r ms i).length = ms.length := by
  intro ms
  induction ms with
  | nil => intro i; rfl
  | cons m rest ih => intro i; simp [regenMarkets, ih]

theorem regenMarkets_get (fruits : List Fruit) (r : ℕ → ℕ → ℚ) :
    ∀ (ms : List Market) (i j : ℕ) (hj : j < ms.length),
      (regenMarkets fruits r ms i).get ⟨j, by rw [regenMarkets_length]; exact hj⟩
        = { ms.get ⟨j, hj⟩ with
            prices := calcMarketPrices (ms.get ⟨j, hj⟩).city fruits (r (i + j)) } := by
  intro ms
  induction ms with
  | nil => intro i j hj; exact absurd hj (Nat.not_lt_zero j)
  | cons m rest ih =>
    intro i j hj
    match j with
    | 0 => simp [regenMarkets]
    | j' + 1 =>
      have hj' : j' < rest.length := Nat.lt_of_succ_lt_succ hj
      have := ih (i + 1) j' hj'
      simp only [regenMarkets, List.get_cons_succ, this]
      rw [Nat.add_assoc, Nat.add_comm 1 j']

theorem pyInt_eq_floor (q : ℚ) (h : 0 ≤ q) : pyInt q = ⌊q⌋ := if_pos h

/-- C1: for every fruit `f` and city `c`, with `m` the city's specialty
modifier for `f.name` (1.0 when no entry exists) and every random factor
in [0.8, 1.2], the price `regenerate_all_prices` writes for `f` into
`c`'s market equals the integer truncation of
`f.base_price × m × random_factor`, and therefore lies within
`[⌊base×m×0.8⌋, ⌊base×m×1.2⌋]`. -/
theorem claim_c1_price_formula_and_bounds
    (g : Game) (r : ℕ → ℕ → ℚ) (i k : ℕ)
    (hi : i < g.markets.length) (hk : k < g.fruits.length)
    (hnodup : (g.fruits.map Fruit.name).Nodup)
    (f : Fruit) (hf : g.fruits.get ⟨k, hk⟩ = f)
    (m : ℚ) (hm : dictGetD (g.markets.get ⟨i, hi⟩).city.specialties f.name 1 = m)
    (hb : 0 ≤ f.base_price) (hm0 : 0 ≤ m)
    (hr₁ : (0.8 : ℚ) ≤ r i k) (hr₂ : r i k ≤ 1.2) :
    dictGetD ((regenerateAllPrices g r).markets.get
        ⟨i, by rw [show (regenerateAllPrices g r).markets
                    = regenMarkets g.fruits r g.markets 0 from rfl,
                  regenMarkets_length]; exact hi⟩).prices f.name 0
      = ⌊(f.base_price : ℚ) * m * r i k⌋
    ∧ ⌊(f.base_price : ℚ) * m * 0.8⌋ ≤ ⌊(f.base_price : ℚ) * m * r i k⌋
    ∧ ⌊(f.base_price : ℚ) * m * r i k⌋ ≤ ⌊(f.base_price : ℚ) * m * 1.2⌋ := by
  have hbm : (0 : ℚ) ≤ (f.base_price : ℚ) * m := by
    apply mul_nonneg _ hm0
    exact_mod_cast hb
  have hr0 : (0 : ℚ) ≤ r i k := le_trans (by norm_num) hr₁
  have hmarket : (regenerateAllPrices g r).markets.get
        ⟨i, by rw [show (regenerateAllPrices g r).markets
                    = regenMarkets g.fruits r g.markets 0 from rfl,
                  regenMarkets_length]; exact hi⟩
      = { g.markets.get ⟨i, hi⟩ with
          prices := calcMarketPrices (g.markets.get ⟨i, hi⟩).city g.fruits (r (0 + i)) } :=
    regenMarkets_get g.fruits r g.markets 0 i hi
  rw [Nat.zero_add] at hmarket
  have hlook : dictGetD (calcMarketPrices (g.markets.get ⟨i, hi⟩).city g.fruits (r i)) f.name 0
      = fruitPrice (g.markets.get ⟨i, hi⟩).city f (r i k) := by
    have := getD_calcMarketPrices (g.markets.get ⟨i, hi⟩).city g.fruits (r i) k hk hnodup
    rwa [hf] at this
  have hval : fruitPrice (g.markets.get ⟨i, hi⟩).city f (r i k)
      = ⌊(f.base_price : ℚ) * m * r i k⌋ := by
    rw [fruitPrice, hm, pyInt_eq_floor]
    exact mul_nonneg hbm hr0
  refine ⟨?_, ?_, ?_⟩
  · rw [hmarket]
    exact hlook.trans hval
  · exact Int.floor_le_floor (mul_le_mul_of_nonneg_left hr₁ hbm)
  · exact Int.floor_le_floor (mul_le_mul_of_nonneg_left hr₂ hbm)

/-- Concrete city used by witnesses: Helsinki from `setup_data`. -/
def wCity : City := { name := "Helsinki", position := (0, 0), specialties := [("Apple", 1.1)] }

/-- Concrete fruit used by witnesses: the Apple from `setup_data`. -/
def wFruit : Fruit := { name := "Apple", base_price := 100, emoji := "A" }

/-- Concrete player used by witnesses. -/
def wPlayer : Player := { name := "Matti", money := 200000, inventory := [], current_city := wCity }

/-- Concrete one-city game used by witnesses. -/
def wGame : Game :=
  { fruits := [wFruit], cities := [wCity], player := wPlayer,
    markets := [{ city := wCity, prices := [] }], current_day := 1 }

/-- Concrete random source used by witnesses: every draw is 1. -/
def wRand : ℕ → ℕ → ℚ := fun _ _ => 1

/-- Witness for C1 at the concrete game `wGame` with every draw 1. -/
theorem claim_c1_price_formula_and_bounds_witness :
    (0 : Int) ≤ wFruit.base_price ∧ (0 : ℚ) ≤ 1.1 ∧ (0.8 : ℚ) ≤ wRand 0 0 ∧ wRand 0 0 ≤ 1.2 ∧
    (dictGetD ((regenerateAllPrices wGame wRand).markets.get
          ⟨0, by rw [show (regenerateAllPrices wGame wRand).markets
                      = regenMarkets wGame.fruits wRand wGame.markets 0 from rfl,
                    regenMarkets_length]; decide⟩).prices wFruit.name 0
        = ⌊(wFruit.base_price : ℚ) * 1.1 * wRand 0 0⌋
      ∧ ⌊(wFruit.base_price : ℚ) * 1.1 * 0.8⌋ ≤ ⌊(wFruit.base_price : ℚ) * 1.1 * wRand 0 0⌋
      ∧ ⌊(wFruit.base_price : ℚ) * 1.1 * wRand 0 0⌋ ≤ ⌊(wFruit.base_price : ℚ) * 1.1 * 1.2⌋) :=
  ⟨by decide, by norm_num, by norm_num [wRand], by norm_num [wRand],
   claim_c1_price_formula_and_bounds wGame wRand 0 0 (by decide) (by decide) (by decide)
     wFruit rfl 1.1 rfl (by decide) (by norm_num) (by norm_num [wRand]) (by norm_num [wRand])⟩

theorem regenMarkets_get? (fruits : List Fruit) (r : ℕ → ℕ → ℚ) :
    ∀ (ms : List Market) (i j : ℕ),
      (regenMarkets fruits r ms i).get? j
        = (ms.get? j).map
            (fun m => { m with prices := calcMarketPrices m.city fruits (r (i + j)) }) := by
  intro ms
  induction ms with
  | nil => intro i j; simp [regenMarkets]
  | cons m rest ih =>
    intro i j
    match j with
    | 0 => simp [regenMarkets]
    | j' + 1 =>
      have := ih (i + 1) j'
      simp only [regenMarkets, List.get?_cons_succ, List.get?, this]
      rw [Nat.add_assoc, Nat.add_comm 1 j']

/-- C2: for every game state and city name matching an existing city,
when the player's money is at least the travel cost, `travel` succeeds
and increments the day counter by exactly 1, decrements the player's
money by the travel cost, sets the player's current city to the named
city, and replaces the entire price mapping of every market in the game
(not only the destination's) with freshly computed prices. -/
theorem claim_c2_travel_success_effects
    (g : Game) (city_name : String) (r : ℕ → ℕ → ℚ)
    (city : City) (hc : g.cities.find? (fun c => c.name == city_name) = some city)
    (hm : travelCost ≤ g.player.money) :
    (travel g city_name r).err = none
    ∧ (travel g city_name r).st.current_day = g.current_day + 1
    ∧ (travel g city_name r).st.player.money = g.player.money - travelCost
    ∧ (travel g city_name r).st.player.current_city = city
    ∧ ∀ (i : ℕ),
        (travel g city_name r).st.markets.get? i
          = (g.markets.get? i).map
              (fun m => { m with prices := calcMarketPrices m.city g.fruits (r i) }) := by
  have hnl : ¬ g.player.money < travelCost := not_lt.mpr hm
  have htravel : travel g city_name r
      = ⟨none, regenerateAllPrices
          { g with
              player := { g.player with
                money := g.player.money - travelCost, current_city := city },
              current_day := g.current_day + 1 } r⟩ := by
    unfold travel
    rw [hc]
    simp [hnl]
  refine ⟨by rw [htravel], by rw [htravel]; rfl, by rw [htravel]; rfl, by rw [htravel]; rfl, ?_⟩
  intro i
  rw [htravel]
  have := regenMarkets_get? g.fruits r g.markets 0 i
  rw [Nat.zero_add] at this
  exact this

/-- Witness for C2: travel from `wGame` to Helsinki with every draw 1. -/
theorem claim_c2_travel_success_effects_witness :
    wGame.cities.find? (fun c => c.name == "Helsinki") = some wCity
    ∧ travelCost ≤ wGame.player.money
    ∧ (travel wGame "Helsinki" wRand).err = none
    ∧ (travel wGame "Helsinki" wRand).st.current_day = wGame.current_day + 1
    ∧ (travel wGame "Helsinki" wRand).st.player.money = wGame.player.money - travelCost
    ∧ (travel wGame "Helsinki" wRand).st.player.current_city = wCity
    ∧ ∀ (i : ℕ),
        (travel wGame "Helsinki" wRand).st.markets.get? i
          = (wGame.markets.get? i).map
              (fun m => { m with prices := calcMarketPrices m.city wGame.fruits (wRand i) }) := by
  have h := claim_c2_travel_success_effects wGame "Helsinki" wRand wCity rfl (by decide)
  exact ⟨rfl, by decide, h.1, h.2.1, h.2.2.1, h.2.2.2.1, h.2.2.2.2⟩

theorem dictGetD_nonneg (d : List (String × Int)) (k : String)
    (h : ∀ p ∈ d, 0 ≤ p.2) : 0 ≤ dictGetD d k 0 := by
  unfold dictGetD
  cases hf : d.find? (fun p => p.1 == k) with
  | none => exact le_refl 0
  | some p => exact h p (List.mem_of_find?_eq_some hf)

/-- C3: `Player.money ≥ 0` is preserved by every operation: starting
from money ≥ 0 with all market prices ≥ 0, any call to `buy`, `sell`
(with positive quantity) or `travel` — whether it succeeds or raises —
leaves money ≥ 0 in the resulting state. -/
theorem claim_c3_money_nonneg_invariant
    (g : Game) (hmoney : 0 ≤ g.player.money)
    (hprices : ∀ m ∈ g.markets, ∀ p ∈ m.prices, 0 ≤ p.2)
    (fruit_name : String) (q : Int) (hq : 0 < q)
    (city_name : String) (r : ℕ → ℕ → ℚ) :
    0 ≤ (buy g fruit_name q).st.player.money
    ∧ 0 ≤ (sell g fruit_name q).st.player.money
    ∧ 0 ≤ (travel g city_name r).st.player.money := by
  refine ⟨?_, ?_, ?_⟩
  · unfold buy
    cases hmk : getCurrentMarket g with
    | none => exact hmoney
    | some market =>
      by_cases hc : dictContains market.prices fruit_name
      · simp only [hc, not_true_eq_false, if_false, if_true]
        by_cases hcost : dictGetD market.prices fruit_name 0 * q > g.player.money
        · simpa [hcost] using hmoney
        · simp only [hcost, if_false, if_true]
          have : dictGetD market.prices fruit_name 0 * q ≤ g.player.money := not_lt.mp hcost
          simpa using sub_nonneg.mpr this
      · simpa [hc] using hmoney
  · unfold sell
    cases hmk : getCurrentMarket g with
    | none => exact hmoney
    | some market =>
      by_cases hc : dictContains market.prices fruit_name
      · simp only [hc, not_true_eq_false, if_false, if_true]
        by_cases hqty : q > dictGetD g.player.inventory fruit_name 0
        · simpa [hqty] using hmoney
        · simp only [hqty, if_false, if_true]
          have hmem : market ∈ g.markets := List.mem_of_find?_eq_some hmk
          have hp : 0 ≤ dictGetD market.prices fruit_name 0 :=
            dictGetD_nonneg _ _ (hprices market hmem)
          have : 0 ≤ dictGetD market.prices fruit_name 0 * q :=
            mul_nonneg hp (le_of_lt hq)
          simpa using add_nonneg hmoney this
      · simpa [hc] using hmoney
  · unfold travel
    cases hf : g.cities.find? (fun c => c.name == city_name) with
    | none => exact hmoney
    | some city =>
      by_cases hm : g.player.money < travelCost
      · simpa [hm] using hmoney
      · simp only [hm, if_false, if_true]
        have h50 : travelCost ≤ g.player.money := not_lt.mp hm
        simpa [regenerateAllPrices] using sub_nonneg.mpr h50

/-- Witness for C3 at `wGame` (prices are empty, so the price
hypothesis is vacuous). -/
theorem claim_c3_money_nonneg_invariant_witness :
    (0 : Int) ≤ wGame.player.money
    ∧ (∀ m ∈ wGame.markets, ∀ p ∈ m.prices, 0 ≤ p.2)
    ∧ (0 : Int) < 1
    ∧ (0 ≤ (buy wGame "Apple" 1).st.player.money
       ∧ 0 ≤ (sell wGame "Apple" 1).st.player.money
       ∧ 0 ≤ (travel wGame "Helsinki" wRand).st.player.money) := by
  have hpr : ∀ m ∈ wGame.markets, ∀ p ∈ m.prices, (0 : Int) ≤ p.2 := by
    intro m hm p hp
    rw [List.mem_singleton.mp hm] at hp
    exact absurd hp (List.not_mem_nil p)
  exact ⟨by decide, hpr, by decide,
    claim_c3_money_nonneg_invariant wGame (by decide) hpr "Apple" 1 (by decide) "Helsinki" wRand⟩

/-- Concrete game with money 10 for the C4 counterexample. -/
def c4Game : Game :=
  { fruits := [wFruit], cities := [wCity], player := { wPlayer with money := 10 },
    markets := [{ city := wCity, prices := [] }], current_day := 1 }

/-- Concrete game with money 0 for the C4 counterexample. -/
def c4Game0 : Game :=
  { fruits := [wFruit], cities := [wCity], player := { wPlayer with money := 0 },
    markets := [{ city := wCity, prices := [] }], current_day := 1 }

/-- Counterexample to C4: with money 10 and travel cost 50 the shortfall
is 40, yet `travel` emits the very same message as with money 0 — the
flat "You need 50 more." — so the message does not report the exact
shortfall `cost − money`. -/
theorem claim_c4_counterexample :
    travelCost - c4Game.player.money = 40
    ∧ travelCost - c4Game0.player.money = 50
    ∧ (travel c4Game "Helsinki" wRand).err
        = some "Not enough funds to travel to Helsinki. You need 50 more."
    ∧ (travel c4Game0 "Helsinki" wRand).err = (travel c4Game "Helsinki" wRand).err := by
  refine ⟨by decide, by decide, rfl, rfl⟩

/-- C4 as amended: for every existing destination city and every player
with money strictly below the travel cost, `travel` fails without
mutating the state, and the message reports the flat travel cost (50)
— not the shortfall `cost − money`; the two agree only when money is 0. -/
theorem claim_c4_amended_flat_cost_message
    (g : Game) (city_name : String) (r : ℕ → ℕ → ℚ)
    (city : City) (hc : g.cities.find? (fun c => c.name == city_name) = some city)
    (hm : g.player.money < travelCost) :
    (travel g city_name r).err
      = some ("Not enough funds to travel to " ++ city_name ++ ". " ++
              "You need " ++ toString travelCost ++ " more.")
    ∧ (travel g city_name r).st = g := by
  unfold travel
  rw [hc]
  simp [hm]

/-- Witness for the amended C4 at `c4Game` (money 10, cost 50). -/
theorem claim_c4_amended_flat_cost_message_witness :
    c4Game.cities.find? (fun c => c.name == "Helsinki") = some wCity
    ∧ c4Game.player.money < travelCost
    ∧ (travel c4Game "Helsinki" wRand).err
        = some ("Not enough funds to travel to " ++ "Helsinki" ++ ". " ++
                "You need " ++ toString travelCost ++ " more.")
    ∧ (travel c4Game "Helsinki" wRand).st = c4Game :=
  ⟨rfl, by decide,
   claim_c4_amended_flat_cost_message c4Game "Helsinki" wRand wCity rfl (by decide)⟩

/-- Fruit with the smallest positive base price, for the C5
counterexample. -/
def c5Fruit : Fruit := { name := "Tiny", base_price := 1, emoji := "t" }

/-- City with no specialty entry (modifier defaults to 1.0), for the C5
counterexample. -/
def c5City : City := { name := "Nowhere", position := (0, 0), specialties := [] }

/-- Counterexample to C5: base price 1 > 0, no specialty entry
(modifier 1.0), random factor 0.8 ∈ [0.8, 1.2], yet the regenerated
price is `int(1 × 1.0 × 0.8) = 0`, not strictly positive. -/
theorem claim_c5_counterexample :
    0 < c5Fruit.base_price
    ∧ c5City.specialties = []
    ∧ ((0.8 : ℚ) ≤ 0.8 ∧ (0.8 : ℚ) ≤ 1.2)
    ∧ dictGetD (calcMarketPrices c5City [c5Fruit] (fun _ => 0.8)) c5Fruit.name 0 = 0
    ∧ ¬ (0 < dictGetD (calcMarketPrices c5City [c5Fruit] (fun _ => 0.8)) c5Fruit.name 0) := by
  have hval : dictGetD (calcMarketPrices c5City [c5Fruit] (fun _ => (0.8 : ℚ))) c5Fruit.name 0
      = 0 := by
    simp only [calcMarketPrices, calcLoop, fruitPrice, c5City, c5Fruit, dictGetD, dictSet,
      List.find?, pyInt]
    norm_num
  exact ⟨by decide, rfl, ⟨by norm_num, by norm_num⟩, hval, by rw [hval]; decide⟩

/-- C5 as amended: the regenerated price is strictly positive whenever
additionally `base_price × modifier × 0.8 ≥ 1` — which holds for every
fruit/city pair `setup_data` creates — so within the shipped data a
stored price of 0 can indeed be read as absence. -/
theorem claim_c5_amended_price_positive
    (g : Game) (r : ℕ → ℕ → ℚ) (i k : ℕ)
    (hi : i < g.markets.length) (hk : k < g.fruits.length)
    (hnodup : (g.fruits.map Fruit.name).Nodup)
    (f : Fruit) (hf : g.fruits.get ⟨k, hk⟩ = f)
    (m : ℚ) (hm : dictGetD (g.markets.get ⟨i, hi⟩).city.specialties f.name 1 = m)
    (hlow : 1 ≤ (f.base_price : ℚ) * m * 0.8)
    (hr₁ : (0.8 : ℚ) ≤ r i k) (_hr₂ : r i k ≤ 1.2) :
    0 < dictGetD ((regenerateAllPrices g r).markets.get
        ⟨i, by rw [show (regenerateAllPrices g r).markets
                    = regenMarkets g.fruits r g.markets 0 from rfl,
                  regenMarkets_length]; exact hi⟩).prices f.name 0 := by
  have hbm : (0 : ℚ) ≤ (f.base_price : ℚ) * m := by nlinarith
  have hr0 : (0 : ℚ) ≤ r i k := le_trans (by norm_num) hr₁
  have hprod : (1 : ℚ) ≤ (f.base_price : ℚ) * m * r i k :=
    le_trans hlow (mul_le_mul_of_nonneg_left hr₁ hbm)
  have hmarket : (regenerateAllPrices g r).markets.get
        ⟨i, by rw [show (regenerateAllPrices g r).markets
                    = regenMarkets g.fruits r g.markets 0 from rfl,
                  regenMarkets_length]; exact hi⟩
      = { g.markets.get ⟨i, hi⟩ with
          prices := calcMarketPrices (g.markets.get ⟨i, hi⟩).city g.fruits (r (0 + i)) } :=
    regenMarkets_get g.fruits r g.markets 0 i hi
  rw [Nat.zero_add] at hmarket
  rw [hmarket]
  have hlook : dictGetD (calcMarketPrices (g.markets.get ⟨i, hi⟩).city g.fruits (r i)) f.name 0
      = fruitPrice (g.markets.get ⟨i, hi⟩).city f (r i k) := by
    have := getD_calcMarketPrices (g.markets.get ⟨i, hi⟩).city g.fruits (r i) k hk hnodup
    rwa [hf] at this
  rw [hlook, fruitPrice, hm, pyInt_eq_floor _ (le_trans (by norm_num) hprod)]
  have : (1 : Int) ≤ ⌊(f.base_price : ℚ) * m * r i k⌋ := by
    rw [Int.le_floor]
    exact_mod_cast hprod
  omega

/-- Witness for the amended C5 at `wGame`: 100 × 1.1 × 0.8 = 88 ≥ 1. -/
theorem claim_c5_amended_price_positive_witness :
    (1 : ℚ) ≤ (wFruit.base_price : ℚ) * 1.1 * 0.8
    ∧ ((0.8 : ℚ) ≤ wRand 0 0 ∧ wRand 0 0 ≤ 1.2)
    ∧ 0 < dictGetD ((regenerateAllPrices wGame wRand).markets.get
        ⟨0, by rw [show (regenerateAllPrices wGame wRand).markets
                    = regenMarkets wGame.fruits wRand wGame.markets 0 from rfl,
                  regenMarkets_length]; decide⟩).prices wFruit.name 0 :=
  ⟨by norm_num [wFruit], ⟨by norm_num [wRand], by norm_num [wRand]⟩,
   claim_c5_amended_price_positive wGame wRand 0 0 (by decide) (by decide) (by decide)
     wFruit rfl 1.1 rfl (by norm_num [wFruit]) (by norm_num [wRand]) (by norm_num [wRand])⟩

/-- C6: when the current market lists a price `p` for the requested
fruit and `p × quantity > money`, `buy` fails with the insufficient
funds error and leaves the whole state (money, inventory, city, day,
all market prices) exactly as before. -/
theorem claim_c6_buy_insufficient_funds_unchanged
    (g : Game) (fruit_name : String) (q : Int) (market : Market)
    (hmk : getCurrentMarket g = some market)
    (hpriced : dictContains market.prices fruit_name = true)
    (hover : dictGetD market.prices fruit_name 0 * q > g.player.money) :
    (buy g fruit_name q).err
      = some ("Not enough funds to buy " ++ toString q ++ " " ++ fruit_name)
    ∧ (buy g fruit_name q).st = g := by
  unfold buy
  rw [hmk]
  simp [hpriced, hover]

/-- Market listing Apple at price 100, for the C6 witness. -/
def c6Market : Market := { city := wCity, prices := [("Apple", 100)] }

/-- Game with money 10 facing price 100, for the C6 witness. -/
def c6Game : Game :=
  { fruits := [wFruit], cities := [wCity], player := { wPlayer with money := 10 },
    markets := [c6Market], current_day := 1 }

/-- Witness for C6: money 10, price 100, quantity 1 — `buy` fails and
money stays 10. -/
theorem claim_c6_buy_insufficient_funds_unchanged_witness :
    getCurrentMarket c6Game = some c6Market
    ∧ dictContains c6Market.prices "Apple" = true
    ∧ dictGetD c6Market.prices "Apple" 0 * 1 > c6Game.player.money
    ∧ (buy c6Game "Apple" 1).err
        = some ("Not enough funds to buy " ++ toString (1 : Int) ++ " " ++ "Apple")
    ∧ (buy c6Game "Apple" 1).st = c6Game
    ∧ (buy c6Game "Apple" 1).st.player.money = 10 :=
  ⟨rfl, by decide, by decide,
   (claim_c6_buy_insufficient_funds_unchanged c6Game "Apple" 1 c6Market rfl
      (by decide) (by decide)).1,
   (claim_c6_buy_insufficient_funds_unchanged c6Game "Apple" 1 c6Market rfl
      (by decide) (by decide)).2,
   by decide⟩

/-- C7: round-trip law — if `buy(f, q)` succeeds and `sell(f, q)` is
called next (prices unchanged, no day advance), the sell succeeds, the
final money equals the original money, and the final inventory quantity
of `f` equals the original one. -/
theorem claim_c7_buy_sell_round_trip
    (g : Game) (fruit_name : String) (q : Int)
    (hinv : 0 ≤ dictGetD g.player.inventory fruit_name 0)
    (hbuy : (buy g fruit_name q).err = none) :
    (sell (buy g fruit_name q).st fruit_name q).err = none
    ∧ (sell (buy g fruit_name q).st fruit_name q).st.player.money = g.player.money
    ∧ dictGetD (sell (buy g fruit_name q).st fruit_name q).st.player.inventory fruit_name 0
        = dictGetD g.player.inventory fruit_name 0 := by
  cases hmk : getCurrentMarket g with
  | none =>
    unfold buy at hbuy
    rw [hmk] at hbuy
    exact absurd hbuy (by simp)
  | some market =>
    by_cases hc : dictContains market.prices fruit_name
    case neg =>
      unfold buy at hbuy
      rw [hmk] at hbuy
      simp [hc] at hbuy
    case pos =>
      by_cases hcost : dictGetD market.prices fruit_name 0 * q > g.player.money
      case pos =>
        unfold buy at hbuy
        rw [hmk] at hbuy
        simp [hc, hcost] at hbuy
      case neg =>
        have hst : (buy g fruit_name q).st
            = { g with player :=
                { g.player with
                    money := g.player.money - dictGetD market.prices fruit_name 0 * q,
                    inventory := dictSet g.player.inventory fruit_name
                      (dictGetD g.player.inventory fruit_name 0 + q) } } := by
          unfold buy
          rw [hmk]
          simp [hc, hcost]
        have hmk₁ : getCurrentMarket (buy g fruit_name q).st = some market := by
          rw [hst]
          exact hmk
        have hqty : dictGetD (buy g fruit_name q).st.player.inventory fruit_name 0
            = dictGetD g.player.inventory fruit_name 0 + q := by
          rw [hst]
          exact dictGetD_dictSet_self _ _ _ _
        have hnot : ¬ q > dictGetD (buy g fruit_name q).st.player.inventory fruit_name 0 := by
          rw [hqty]
          omega
        have hsell : sell (buy g fruit_name q).st fruit_name q
            = ⟨none,
               { (buy g fruit_name q).st with player :=
                 { (buy g fruit_name q).st.player with
                     money := (buy g fruit_name q).st.player.money
                       + dictGetD market.prices fruit_name 0 * q,
                     inventory := dictSet (buy g fruit_name q).st.player.inventory fruit_name
                       (dictGetD (buy g fruit_name q).st.player.inventory fruit_name 0 - q) } }⟩ := by
          unfold sell
          rw [hmk₁]
          simp [hc, hnot]
        refine ⟨by rw [hsell], ?_, ?_⟩
        · rw [hsell]
          simp only
          rw [hst]
          simp only
          ring
        · rw [hsell]
          simp only
          rw [dictGetD_dictSet_self, hqty]
          ring

/-- Market listing Apple at price 7, for the C7 witness. -/
def c7Market : Market := { city := wCity, prices := [("Apple", 7)] }

/-- Game with ample money and empty inventory, for the C7 witness. -/
def c7Game : Game :=
  { fruits := [wFruit], cities := [wCity], player := wPlayer,
    markets := [c7Market], current_day := 1 }

/-- Witness for C7: buy 2 Apples at 7 then sell 2 — money and inventory
return to their original values. -/
theorem claim_c7_buy_sell_round_trip_witness :
    (0 : Int) ≤ dictGetD c7Game.player.inventory "Apple" 0
    ∧ (buy c7Game "Apple" 2).err = none
    ∧ ((sell (buy c7Game "Apple" 2).st "Apple" 2).err = none
       ∧ (sell (buy c7Game "Apple" 2).st "Apple" 2).st.player.money = c7Game.player.money
       ∧ dictGetD (sell (buy c7Game "Apple" 2).st "Apple" 2).st.player.inventory "Apple" 0
           = dictGetD c7Game.player.inventory "Apple" 0) :=
  ⟨by decide, by decide,
   claim_c7_buy_sell_round_trip c7Game "Apple" 2 (by decide) (by decide)⟩

theorem cityLookup_name (cities : List City) (n : String) (c : City)
    (h : cityLookup cities n = some c) : c.name = n := by
  have := List.find?_some h
  simpa using this

theorem cityLookup_mem (cities : List City) (n : String) (c : City)
    (h : cityLookup cities n = some c) : c ∈ cities := by
  have := List.mem_of_find?_eq_some h
  exact List.mem_reverse.mp this

theorem buildMarkets_roundtrip (cities : List City) :
    ∀ (ms : List Market), (∀ m ∈ ms, (cityLookup cities m.city.name).isSome) →
      ∃ res, buildMarkets cities (ms.map (fun m => (m.city.name, m.prices))) = Except.ok res
        ∧ res.length = ms.length
        ∧ (∀ i, (res.get? i).map (fun mk => (mk.city.name, mk.prices))
              = (ms.get? i).map (fun mk => (mk.city.name, mk.prices)))
        ∧ (∀ mk ∈ res, mk.city ∈ cities) := by
  intro ms
  induction ms with
  | nil =>
    intro _
    exact ⟨[], rfl, rfl, fun i => rfl, fun mk hmk => absurd hmk (List.not_mem_nil mk)⟩
  | cons m rest ih =>
    intro h
    have hm := h m (List.mem_cons_self _ _)
    obtain ⟨c, hc⟩ := Option.isSome_iff_exists.mp hm
    obtain ⟨res, hres, hlen, hpoint, hmem⟩ :=
      ih (fun m' hm' => h m' (List.mem_cons_of_mem _ hm'))
    refine ⟨Market.mk c m.prices :: res, ?_, by simpa using hlen, ?_, ?_⟩
    · simp only [List.map_cons, buildMarkets, hc, hres]
    · intro i
      match i with
      | 0 => simp [cityLookup_name cities m.city.name c hc]
      | i' + 1 => exact hpoint i'
    · intro mk hmk
      rcases List.mem_cons.mp hmk with heq | htail
      · rw [heq]
        exact cityLookup_mem cities m.city.name c hc
      · exact hmem mk htail

/-- C8: deserializing the record produced by `serialize_game` yields a
game whose player has equal name, money, inventory and current-city
name, equal day counter, and markets equal pointwise by city name and
price mapping, with the player's city resolved by name to a city of the
reconstructed city list. -/
theorem claim_c8_serialize_roundtrip
    (g : Game) (now : String)
    (hmarts : ∀ m ∈ g.markets, (cityLookup g.cities m.city.name).isSome)
    (hplayer : (cityLookup g.cities g.player.current_city.name).isSome) :
    ∃ g', deserializeGame (serializeGame g now) = Except.ok g'
      ∧ g'.player.name = g.player.name
      ∧ g'.player.money = g.player.money
      ∧ g'.player.inventory = g.player.inventory
      ∧ g'.player.current_city.name = g.player.current_city.name
      ∧ g'.current_day = g.current_day
      ∧ g'.markets.length = g.markets.length
      ∧ (∀ i, (g'.markets.get? i).map (fun mk => (mk.city.name, mk.prices))
            = (g.markets.get? i).map (fun mk => (mk.city.name, mk.prices)))
      ∧ g'.player.current_city ∈ g'.cities
      ∧ g'.cities = g.cities := by
  obtain ⟨res, hres, hlen, hpoint, _⟩ := buildMarkets_roundtrip g.cities g.markets hmarts
  obtain ⟨pc, hpc⟩ := Option.isSome_iff_exists.mp hplayer
  refine ⟨{ fruits := g.fruits, cities := g.cities,
            player := { name := g.player.name, money := g.player.money,
                        inventory := g.player.inventory, current_city := pc },
            markets := res, current_day := g.current_day }, ?_, rfl, rfl, rfl, ?_, rfl,
          hlen, hpoint, ?_, rfl⟩
  · unfold deserializeGame serializeGame
    simp only [hres, hpc]
  · exact cityLookup_name g.cities g.player.current_city.name pc hpc
  · exact cityLookup_mem g.cities g.player.current_city.name pc hpc

/-- Witness for C8 at `wGame`: one city, one market, player in
Helsinki. -/
theorem claim_c8_serialize_roundtrip_witness :
    (∀ m ∈ wGame.markets, (cityLookup wGame.cities m.city.name).isSome)
    ∧ (cityLookup wGame.cities wGame.player.current_city.name).isSome
    ∧ ∃ g', deserializeGame (serializeGame wGame "2026-10-12 00:00:00") = Except.ok g'
        ∧ g'.player.name = wGame.player.name
        ∧ g'.player.money = wGame.player.money
        ∧ g'.player.inventory = wGame.player.inventory
        ∧ g'.player.current_city.name = wGame.player.current_city.name
        ∧ g'.current_day = wGame.current_day
        ∧ g'.markets.length = wGame.markets.length
        ∧ (∀ i, (g'.markets.get? i).map (fun mk => (mk.city.name, mk.prices))
              = (wGame.markets.get? i).map (fun mk => (mk.city.name, mk.prices)))
        ∧ g'.player.current_city ∈ g'.cities
        ∧ g'.cities = wGame.cities := by
  have hmarts : ∀ m ∈ wGame.markets, (cityLookup wGame.cities m.city.name).isSome := by
    intro m hm
    rw [List.mem_singleton.mp hm]
    rfl
  exact ⟨hmarts, rfl,
    claim_c8_serialize_roundtrip wGame "2026-10-12 00:00:00" hmarts rfl⟩

/-- C9: the engine and its collaborators address the player's location
and the day through attributes named `current_city` / `current_day`,
while models.py declares the fields `city` / `day`.  Under the records
as declared: (a) the keyword lists `setup_data` passes match neither
dataclass, (b) `setup_data` raises `TypeError` for every player name,
(c) `travel`, `buy` and `sell` raise for every input from
declared-constructor states (where the dynamic attributes are unset),
and (d) no operation reads or writes the declared `city` / `day`
fields: overwriting them commutes with every operation. -/
theorem claim_c9_declared_field_mismatch :
    (Decl.ctorKwargsOk Decl.playerFields Decl.setupPlayerKwargs = false
      ∧ Decl.ctorKwargsOk Decl.gameFields Decl.setupGameKwargs = false)
    ∧ (∀ nm, Decl.setupData nm = Except.error
        "TypeError: Player.__init__() got an unexpected keyword argument: current_city")
    ∧ (∀ (g : Decl.GameD) (nm : String) (r : ℕ → ℕ → ℚ),
        g.current_day = none → (Decl.travelD g nm r).err.isSome = true)
    ∧ (∀ (g : Decl.GameD) (fn : String) (q : Int),
        g.player.current_city = none → (Decl.buyD g fn q).err.isSome = true)
    ∧ (∀ (g : Decl.GameD) (fn : String) (q : Int),
        g.player.current_city = none → (Decl.sellD g fn q).err.isSome = true)
    ∧ (∀ (g : Decl.GameD) (c : City) (d : Int) (nm : String) (r : ℕ → ℕ → ℚ),
        Decl.travelD (Decl.setCityDay g c d) nm r
          = ⟨(Decl.travelD g nm r).err, Decl.setCityDay (Decl.travelD g nm r).st c d⟩)
    ∧ (∀ (g : Decl.GameD) (c : City) (d : Int) (fn : String) (q : Int),
        Decl.buyD (Decl.setCityDay g c d) fn q
          = ⟨(Decl.buyD g fn q).err, Decl.setCityDay (Decl.buyD g fn q).st c d⟩)
    ∧ (∀ (g : Decl.GameD) (c : City) (d : Int) (fn : String) (q : Int),
        Decl.sellD (Decl.setCityDay g c d) fn q
          = ⟨(Decl.sellD g fn q).err, Decl.setCityDay (Decl.sellD g fn q).st c d⟩) := by
  refine ⟨⟨rfl, rfl⟩, fun nm => rfl, ?_, ?_, ?_, ?_, ?_, ?_⟩
  · intro g nm r h
    unfold Decl.travelD
    cases hf : g.cities.find? (fun c => c.name == nm) with
    | none => rfl
    | some city =>
      by_cases hm : g.player.money < travelCost
      · simp [hm]
      · simp only [hm, if_false, if_true]
        have : ({ g with player := { g.player with
            money := g.player.money - travelCost,
            current_city := some city } } : Decl.GameD).current_day = none := h
        rw [this]
        rfl
  · intro g fn q h
    unfold Decl.buyD Decl.getCurrentMarketD Decl.readCurrentCity
    rw [h]
    rfl
  · intro g fn q h
    unfold Decl.sellD Decl.getCurrentMarketD Decl.readCurrentCity
    rw [h]
    rfl
  · intro g c d nm r
    unfold Decl.travelD Decl.setCityDay
    cases hf : g.cities.find? (fun x => x.name == nm) with
    | none => rfl
    | some city =>
      by_cases hm : g.player.money < travelCost
      · simp [hm]
      · simp only [hm, if_false, if_true]
        cases hd : g.current_day with
        | none => rfl
        | some day => rfl
  · intro g c d fn q
    unfold Decl.buyD
    rw [show Decl.getCurrentMarketD (Decl.setCityDay g c d) = Decl.getCurrentMarketD g
        from rfl]
    cases hmk : Decl.getCurrentMarketD g with
    | error e => rfl
    | ok market =>
      dsimp only [Decl.setCityDay]
      by_cases hc : dictContains market.prices fn
      · simp only [hc, not_true_eq_false, if_false, if_true]
        by_cases hcost : dictGetD market.prices fn 0 * q > g.player.money
        · simp only [hcost, if_true]
        · simp only [hcost, if_false]
      · simp only [hc, not_false_eq_true, if_true]
        rfl
  · intro g c d fn q
    unfold Decl.sellD
    rw [show Decl.getCurrentMarketD (Decl.setCityDay g c d) = Decl.getCurrentMarketD g
        from rfl]
    cases hmk : Decl.getCurrentMarketD g with
    | error e => rfl
    | ok market =>
      dsimp only [Decl.setCityDay]
      by_cases hc : dictContains market.prices fn
      · simp only [hc, not_true_eq_false, if_false, if_true]
        by_cases hqty : q > dictGetD g.player.inventory fn 0
        · simp only [hqty, if_true]
        · simp only [hqty, if_false]
      · simp only [hc, not_false_eq_true, if_true]
        rfl

/-- As-declared game state built only through the declared constructors
(dynamic attributes unset), for the C9 witness. -/
def declGame : Decl.GameD :=
  { fruits := [wFruit], cities := [wCity],
    player := { name := "Matti", money := 200000, inventory := [], city := wCity },
    markets := [{ city := wCity, prices := [("Apple", 7)] }], day := 1 }

/-- Witness for C9 at a declared-constructor state with ample money:
`setup_data` raises `TypeError`, and `travel`/`buy`/`sell` all raise. -/
theorem claim_c9_declared_field_mismatch_witness :
    Decl.setupData "Matti" = Except.error
      "TypeError: Player.__init__() got an unexpected keyword argument: current_city"
    ∧ declGame.current_day = none
    ∧ declGame.player.current_city = none
    ∧ (Decl.travelD declGame "Helsinki" wRand).err.isSome = true
    ∧ (Decl.buyD declGame "Apple" 1).err.isSome = true
    ∧ (Decl.sellD declGame "Apple" 1).err.isSome = true :=
  ⟨claim_c9_declared_field_mismatch.2.1 "Matti", rfl, rfl,
   claim_c9_declared_field_mismatch.2.2.1 declGame "Helsinki" wRand rfl,
   claim_c9_declared_field_mismatch.2.2.2.1 declGame "Apple" 1 rfl,
   claim_c9_declared_field_mismatch.2.2.2.2.1 declGame "Apple" 1 rfl⟩

/-- C10: `sell` does not validate that the quantity is positive — with
a market price `p ≥ 0` listed for the fruit and held inventory ≥ 0, any
quantity `q ≤ 0` passes the inventory check, `sell` succeeds, adds
`p × q` to money (strictly decreasing it when `q < 0` and `p > 0`), and
sets the fruit's inventory entry to `held − q`, increasing it. -/
theorem claim_c10_sell_nonpositive_quantity
    (g : Game) (fruit_name : String) (q : Int) (market : Market)
    (hmk : getCurrentMarket g = some market)
    (hpriced : dictContains market.prices fruit_name = true)
    (_hp0 : 0 ≤ dictGetD market.prices fruit_name 0)
    (hheld : 0 ≤ dictGetD g.player.inventory fruit_name 0)
    (hq : q ≤ 0) :
    (sell g fruit_name q).err = none
    ∧ (sell g fruit_name q).st.player.money
        = g.player.money + dictGetD market.prices fruit_name 0 * q
    ∧ dictGetD (sell g fruit_name q).st.player.inventory fruit_name 0
        = dictGetD g.player.inventory fruit_name 0 - q
    ∧ dictGetD g.player.inventory fruit_name 0
        ≤ dictGetD g.player.inventory fruit_name 0 - q
    ∧ (q < 0 → 0 < dictGetD market.prices fruit_name 0 →
        (sell g fruit_name q).st.player.money < g.player.money) := by
  have hnot : ¬ q > dictGetD g.player.inventory fruit_name 0 := by omega
  have hsell : sell g fruit_name q
      = ⟨none,
         { g with player :=
           { g.player with
               money := g.player.money + dictGetD market.prices fruit_name 0 * q,
               inventory := dictSet g.player.inventory fruit_name
                 (dictGetD g.player.inventory fruit_name 0 - q) } }⟩ := by
    unfold sell
    rw [hmk]
    simp [hpriced, hnot]
  refine ⟨by rw [hsell], by rw [hsell], ?_, by omega, ?_⟩
  · rw [hsell]
    exact dictGetD_dictSet_self _ _ _ _
  · intro hqneg hppos
    rw [hsell]
    simp only
    have : dictGetD market.prices fruit_name 0 * q < 0 :=
      mul_neg_of_pos_of_neg hppos hqneg
    omega

/-- Market listing Apple at price 5, for the C10 witness. -/
def c10Market : Market := { city := wCity, prices := [("Apple", 5)] }

/-- Game holding 2 Apples with Apple priced 5, for the C10 witness. -/
def c10Game : Game :=
  { fruits := [wFruit], cities := [wCity],
    player := { wPlayer with money := 100, inventory := [("Apple", 2)] },
    markets := [c10Market], current_day := 1 }

/-- Witness for C10: selling −3 Apples succeeds, money drops from 100
to 85, inventory grows from 2 to 5. -/
theorem claim_c10_sell_nonpositive_quantity_witness :
    getCurrentMarket c10Game = some c10Market
    ∧ dictContains c10Market.prices "Apple" = true
    ∧ (0 : Int) ≤ dictGetD c10Market.prices "Apple" 0
    ∧ (0 : Int) ≤ dictGetD c10Game.player.inventory "Apple" 0
    ∧ (-3 : Int) ≤ 0
    ∧ ((sell c10Game "Apple" (-3)).err = none
       ∧ (sell c10Game "Apple" (-3)).st.player.money
           = c10Game.player.money + dictGetD c10Market.prices "Apple" 0 * (-3)
       ∧ dictGetD (sell c10Game "Apple" (-3)).st.player.inventory "Apple" 0
           = dictGetD c10Game.player.inventory "Apple" 0 - (-3)
       ∧ dictGetD c10Game.player.inventory "Apple" 0
           ≤ dictGetD c10Game.player.inventory "Apple" 0 - (-3)
       ∧ ((-3 : Int) < 0 → 0 < dictGetD c10Market.prices "Apple" 0 →
           (sell c10Game "Apple" (-3)).st.player.money < c10Game.player.money))
    ∧ (sell c10Game "Apple" (-3)).st.player.money = 85
    ∧ dictGetD (sell c10Game "Apple" (-3)).st.player.inventory "Apple" 0 = 5 :=
  ⟨rfl, by decide, by decide, by decide, by decide,
   claim_c10_sell_nonpositive_quantity c10Game "Apple" (-3) c10Market rfl
     (by decide) (by decide) (by decide) (by decide),
   by decide, by decide⟩

end FruitGame
